import Mathlib

/-!
Verification of the PDF-to-PPTX converter's text-block pipeline
(`app/text_extraction.py`, `app/utils.py`, `app/models.py`,
`app/layout.py`, `app/pptx_generator.py`).

Coordinates in PDF-point space are modelled as rationals, EMU
coordinates as integers, and text payloads as Lean strings.  Python
regular-expression substitutions are modelled as explicit left-to-right
scanners with the same non-overlapping match semantics.
-/

namespace PdfPptx

/-- Characters Python `str.strip` / the `\s` class treat as whitespace
(ASCII range). -/
def pyIsSpace (c : Char) : Bool :=
  c = ' ' || c = '\t' || c = '\n' || c = '\r' || c = '\x0b' || c = '\x0c'

/-- The character class `[ \t]` used by the normalizer's space-collapsing
regexes. -/
def isSpTab (c : Char) : Bool :=
  c = ' ' || c = '\t'

/-- Python `str.strip()` on a list of characters: drop whitespace from
both ends. -/
def pyStripL (l : List Char) : List Char :=
  List.rdropWhile pyIsSpace (List.dropWhile pyIsSpace l)

/-- Python `str.strip()`. -/
def pyStrip (s : String) : String :=
  ⟨pyStripL s.data⟩

/-- Python `str.rstrip()`. -/
def pyRstrip (s : String) : String :=
  ⟨List.rdropWhile pyIsSpace s.data⟩

/-- Python `str.startswith` (character-list form, kernel-reducible). -/
def pyStartsW (s pre : String) : Bool :=
  pre.data.isPrefixOf s.data

/-- Python `str.endswith` (character-list form, kernel-reducible). -/
def pyEndsW (s suf : String) : Bool :=
  suf.data.isSuffixOf s.data

/-- The first character of a Python string (`s[0]`); only used on
nonempty strings. -/
def pyFront (s : String) : Char :=
  s.data.headD 'A'

/-- Python `str.split(chr(10))` on a list of characters; always returns a
nonempty list of segments. -/
def splitNl : List Char → List (List Char)
  | [] => [[]]
  | c :: cs =>
    match splitNl cs with
    | [] => [[]]
    | h :: t => if c = '\n' then [] :: h :: t else (c :: h) :: t

/-- Python `min` on two rationals (kernel-reducible form). -/
def qmin (a b : ℚ) : ℚ :=
  if a ≤ b then a else b

/-- Python `max` on two rationals (kernel-reducible form). -/
def qmax (a b : ℚ) : ℚ :=
  if a ≤ b then b else a

/-- Python `abs` on a rational (kernel-reducible form). -/
def qabs (q : ℚ) : ℚ :=
  if 0 ≤ q then q else -q

/-- A text block `(x0, y0, x1, y1, text)` in PDF point space
(`app/models.py`, `TextBlock`). -/
structure TextBlock where
  x0 : ℚ
  y0 : ℚ
  x1 : ℚ
  y1 : ℚ
  text : String
deriving DecidableEq, Repr

/-- A text block in PPTX EMU space (integer coordinates), as produced by
`app/layout.py`. -/
structure EmuBlock where
  x0 : ℤ
  y0 : ℤ
  x1 : ℤ
  y1 : ℤ
  text : String
deriving DecidableEq, Repr

/-- `MINIMUM_TEXT_THRESHOLD` from `app/models.py`. -/
def MINIMUM_TEXT_THRESHOLD : ℕ := 20

/-- `has_sufficient_text` from `app/text_extraction.py`: sums the lengths
of the stripped block texts and compares against the threshold. -/
def has_sufficient_text (text_blocks : List TextBlock) : Bool :=
  decide (MINIMUM_TEXT_THRESHOLD ≤
    (text_blocks.map (fun b => (pyStrip b.text).length)).sum)

/-- Scanner for the substitution of each maximal `[ \t]+` run by a single
space (first regex in `_normalize_text`).  The flag records whether we
are inside a run whose first character has already been emitted. -/
def collapseSpTabGo : Bool → List Char → List Char
  | _, [] => []
  | inRun, c :: cs =>
    if isSpTab c then
      if inRun then collapseSpTabGo true cs
      else ' ' :: collapseSpTabGo true cs
    else c :: collapseSpTabGo false cs

/-- `re.sub` of `[ \t]+` by a single space. -/
def collapseSpTab (l : List Char) : List Char :=
  collapseSpTabGo false l

/-- Scanner for the deletion of `[ \t]+` runs that directly follow a
newline (second regex in `_normalize_text`).  The flag records whether
the previously emitted character was a newline (possibly with spaces and
tabs already skipped after it). -/
def stripAfterNlGo : Bool → List Char → List Char
  | _, [] => []
  | afterNl, c :: cs =>
    if afterNl && isSpTab c then stripAfterNlGo true cs
    else if c = '\n' then '\n' :: stripAfterNlGo true cs
    else c :: stripAfterNlGo false cs

/-- `re.sub` deleting `[ \t]+` immediately after a newline. -/
def stripAfterNl (l : List Char) : List Char :=
  stripAfterNlGo false l

/-- Scanner for the deletion of `[ \t]+` runs that directly precede a
newline (third regex in `_normalize_text`).  `pend` buffers the current
run of spaces/tabs in reverse; the run is dropped when a newline follows
and re-emitted otherwise. -/
def stripBeforeNlGo : List Char → List Char → List Char
  | pend, [] => pend.reverse
  | pend, c :: cs =>
    if isSpTab c then stripBeforeNlGo (c :: pend) cs
    else if c = '\n' then '\n' :: stripBeforeNlGo [] cs
    else pend.reverse ++ c :: stripBeforeNlGo [] cs

/-- `re.sub` deleting `[ \t]+` immediately before a newline. -/
def stripBeforeNl (l : List Char) : List Char :=
  stripBeforeNlGo [] l

/-- Scanner replacing each run of three or more newlines by exactly two
(fourth regex in `_normalize_text`).  `pend` counts the pending run of
consecutive newlines. -/
def squeezeNlGo : ℕ → List Char → List Char
  | pend, [] => List.replicate (min pend 2) '\n'
  | pend, c :: cs =>
    if c = '\n' then squeezeNlGo (pend + 1) cs
    else List.replicate (min pend 2) '\n' ++ c :: squeezeNlGo 0 cs

/-- `re.sub` collapsing three or more consecutive newlines to two. -/
def squeezeNl (l : List Char) : List Char :=
  squeezeNlGo 0 l

/-- State of the dehyphenation scanner: either scanning normally, holding
one pending letter, holding a pending `letter -` pair, or collecting the
whitespace run after `letter -` (with the buffered run in order and a
flag recording whether it contains a newline). -/
inductive DehState where
  | s0 : DehState
  | s1 (a : Char) : DehState
  | s2 (a : Char) : DehState
  | s3 (a : Char) (pend : List Char) (sawNl : Bool) : DehState
deriving Repr

/-- Left-to-right non-overlapping scanner for the substitution of
`([a-zA-Z])-\s*` newline `\s*([a-zA-Z])` by the two letters, modelling
`re.sub` in `_dehyphenate_text`.  On a successful match both letters are
emitted and scanning resumes after the match, so the continuation letter
cannot start a new match; a failed attempt consumes nothing, so the
letter that ends a failed attempt starts a fresh attempt of its own. -/
def dehyphGo : DehState → List Char → List Char
  | .s0, [] => []
  | .s1 a, [] => [a]
  | .s2 a, [] => [a, '-']
  | .s3 a pend _, [] => a :: '-' :: pend
  | .s0, c :: cs =>
    if c.isAlpha then dehyphGo (.s1 c) cs
    else c :: dehyphGo .s0 cs
  | .s1 a, c :: cs =>
    if c = '-' then dehyphGo (.s2 a) cs
    else if c.isAlpha then a :: dehyphGo (.s1 c) cs
    else a :: c :: dehyphGo .s0 cs
  | .s2 a, c :: cs =>
    if pyIsSpace c then dehyphGo (.s3 a [c] (c = '\n')) cs
    else if c.isAlpha then a :: '-' :: dehyphGo (.s1 c) cs
    else a :: '-' :: c :: dehyphGo .s0 cs
  | .s3 a pend sawNl, c :: cs =>
    if pyIsSpace c then dehyphGo (.s3 a (pend ++ [c]) (sawNl || c = '\n')) cs
    else if c.isAlpha then
      if sawNl then a :: c :: dehyphGo .s0 cs
      else a :: '-' :: pend ++ dehyphGo (.s1 c) cs
    else a :: '-' :: pend ++ c :: dehyphGo .s0 cs

/-- `_dehyphenate_text` from `app/text_extraction.py`. -/
def dehyphenate_text (s : String) : String :=
  ⟨dehyphGo .s0 s.data⟩

/-- `_normalize_text` from `app/text_extraction.py`: the four whitespace
substitutions, optional dehyphenation, then a final strip. -/
def normalize_text (s : String) (dehyphenate : Bool) : String :=
  if s = "" then ""
  else
    let t := squeezeNl (stripBeforeNl (stripAfterNl (collapseSpTab s.data)))
    let t := if dehyphenate then dehyphGo .s0 t else t
    pyStrip ⟨t⟩

/-- The three-character sequence the source compares against for bullet
markers in `_combine_content_text` (the file stores the bullet glyph as
these three code points). -/
def bulletMarker : String :=
  "â€¢"

/-- The joining condition of `_combine_content_text`: paragraph break when
the next (stripped) piece starts with an uppercase letter and the
previously accumulated element ends with a period, when the next piece is
longer than 50 characters, or when it starts with the bullet marker or a
dash. -/
def combineBreak (last piece : String) : Bool :=
  ((pyFront piece).isUpper && pyEndsW last ".") || decide (50 < piece.length) ||
    pyStartsW piece bulletMarker || pyStartsW piece "-"

/-- One step of the accumulation loop of `_combine_content_text`:
`combined` is the list of already accumulated segments (each later
segment carrying its joiner). -/
def combineStep (combined : List String) (piece : String) : List String :=
  let p := pyStrip piece
  if p = "" then combined
  else if combined = [] then [p]
  else combined ++ [(if combineBreak (combined.getLastD "") p then "\n\n" else " ") ++ p]

/-- `_combine_content_text` from `app/text_extraction.py`. -/
def combine_content_text (text_pieces : List String) : String :=
  String.join (text_pieces.foldl combineStep [])

/-- Strict reading-order comparison on the sort key `(y0, x0)` used by
`_sort_by_reading_order`. -/
def readingKeyLt (a b : TextBlock) : Bool :=
  decide (a.y0 < b.y0 ∨ (a.y0 = b.y0 ∧ a.x0 < b.x0))

/-- Stable insertion of a block: it is placed before the first element
strictly greater in the `(y0, x0)` order, hence after all earlier
elements with an equal key. -/
def insertReading (b : TextBlock) : List TextBlock → List TextBlock
  | [] => [b]
  | c :: rest => if readingKeyLt b c then b :: c :: rest else c :: insertReading b rest

/-- `_sort_by_reading_order` from `app/text_extraction.py`: the stable
sort by `(y0, x0)` ascending. -/
def sort_by_reading_order (text_blocks : List TextBlock) : List TextBlock :=
  text_blocks.foldl (fun acc b => insertReading b acc) []

/-- The region tolerance (50 points) of `_group_into_content_blocks`. -/
def regionTolerance : ℚ := 50

/-- Main loop of `_group_into_content_blocks` once a region is open:
`top`/`bot` is the current vertical band and `content` the collected
stripped texts.  A block joins when its `y0` is within tolerance of the
band top or its `y1` within tolerance of the band bottom; otherwise the
band is flushed as a block spanning `x = 50 .. 700`. -/
def groupAux : List TextBlock → ℚ → ℚ → List String → List TextBlock
  | [], top, bot, content =>
    let combined := combine_content_text content
    if pyStrip combined = "" then [] else [⟨50, top, 700, bot, combined⟩]
  | b :: rest, top, bot, content =>
    let t := pyStrip b.text
    if t = "" then groupAux rest top bot content
    else if qabs (b.y0 - top) ≤ regionTolerance ∨ qabs (b.y1 - bot) ≤ regionTolerance then
      groupAux rest (qmin top b.y0) (qmax bot b.y1) (content ++ [t])
    else
      let combined := combine_content_text content
      (if pyStrip combined = "" then [] else [⟨50, top, 700, bot, combined⟩]) ++
        groupAux rest b.y0 b.y1 [t]

/-- `_group_into_content_blocks` from `app/text_extraction.py`: skip
blocks whose text strips to empty until the first region opens, then run
the band-grouping loop. -/
def group_into_content_blocks : List TextBlock → List TextBlock
  | [] => []
  | b :: rest =>
    let t := pyStrip b.text
    if t = "" then group_into_content_blocks rest
    else groupAux rest b.y0 b.y1 [t]

/-- `normalize_and_group_text_blocks` from `app/text_extraction.py`:
per-block text normalization with empty blocks dropped, reading-order
sort, then region grouping. -/
def normalize_and_group_text_blocks (text_blocks : List TextBlock)
    (dehyphenate : Bool := true) : List TextBlock :=
  if text_blocks = [] then []
  else
    let normalized := (text_blocks.filterMap (fun b =>
      let cleaned := normalize_text b.text dehyphenate
      if pyStrip cleaned = "" then none
      else some ⟨b.x0, b.y0, b.x1, b.y1, cleaned⟩))
    group_into_content_blocks (sort_by_reading_order normalized)

/-- `_blocks_overlap` from `app/text_extraction.py`: intersection area
over the smaller block area, compared against the threshold, with zero
guards. -/
def blocks_overlap (block1 block2 : TextBlock) (threshold : ℚ) : Bool :=
  let xOverlap := qmax 0 (qmin block1.x1 block2.x1 - qmax block1.x0 block2.x0)
  let yOverlap := qmax 0 (qmin block1.y1 block2.y1 - qmax block1.y0 block2.y0)
  if xOverlap = 0 ∨ yOverlap = 0 then false
  else
    let overlapArea := xOverlap * yOverlap
    let area1 := (block1.x1 - block1.x0) * (block1.y1 - block1.y0)
    let area2 := (block2.x1 - block2.x0) * (block2.y1 - block2.y0)
    let minArea := qmin area1 area2
    if minArea = 0 then false
    else decide (threshold ≤ overlapArea / minArea)

/-- `_merge_two_blocks` from `app/text_extraction.py`: bounding-box union;
texts joined by a newline, the block with the smaller top edge first. -/
def merge_two_blocks (block1 block2 : TextBlock) : TextBlock :=
  ⟨qmin block1.x0 block2.x0, qmin block1.y0 block2.y0,
   qmax block1.x1 block2.x1, qmax block1.y1 block2.y1,
   if block1.y0 ≤ block2.y0 then block1.text ++ "\n" ++ block2.text
   else block2.text ++ "\n" ++ block1.text⟩

/-- Inner loop of `merge_overlapping_blocks`: absorb into `cur` every
later block that overlaps the current (growing) merged block, returning
the merged block and the unconsumed blocks in order. -/
def absorbBlocks (cur : TextBlock) (threshold : ℚ) :
    List TextBlock → TextBlock × List TextBlock
  | [] => (cur, [])
  | b :: rest =>
    if blocks_overlap cur b threshold then
      absorbBlocks (merge_two_blocks cur b) threshold rest
    else
      let r := absorbBlocks cur threshold rest
      (r.1, b :: r.2)

theorem absorbBlocks_length_le (cur : TextBlock) (threshold : ℚ) (l : List TextBlock) :
    (absorbBlocks cur threshold l).2.length ≤ l.length := by
  induction l generalizing cur with
  | nil => simp [absorbBlocks]
  | cons b rest ih =>
    simp only [absorbBlocks]
    split
    · exact Nat.le_succ_of_le (ih _)
    · simpa using Nat.succ_le_succ (ih cur)

/-- Outer loop of `merge_overlapping_blocks`: take the first unused block,
absorb its overlap chain, emit it, and continue on the remaining blocks. -/
def mergeLoop (threshold : ℚ) (l : List TextBlock) : List TextBlock :=
  match l with
  | [] => []
  | b :: rest =>
    let r := absorbBlocks b threshold rest
    r.1 :: mergeLoop threshold r.2
termination_by l.length
decreasing_by
  simp_wf
  exact Nat.lt_succ_of_le (absorbBlocks_length_le _ _ _)

/-- `merge_overlapping_blocks` from `app/text_extraction.py`. -/
def merge_overlapping_blocks (text_blocks : List TextBlock)
    (overlap_threshold : ℚ := 1/2) : List TextBlock :=
  if text_blocks.length < 2 then text_blocks
  else mergeLoop overlap_threshold text_blocks

/-- Detector for the dehyphenation pattern: true when the character list
contains a letter, a hyphen, a whitespace run containing a newline, and a
letter, in sequence.  Used to state that the dehyphenation rule collapsed
every such sequence. -/
def hasHyphenPattern : List Char → Bool
  | [] => false
  | c :: cs =>
    (c.isAlpha &&
      (match cs with
       | '-' :: r2 =>
         (r2.takeWhile pyIsSpace).contains '\n' &&
           (match r2.dropWhile pyIsSpace with
            | d :: _ => d.isAlpha
            | [] => false)
       | _ => false)) ||
    hasHyphenPattern cs

/-- `PPTX_EMU_PER_INCH` from `app/models.py`. -/
def PPTX_EMU_PER_INCH : ℚ := 914400

/-- `PDF_POINTS_PER_INCH` from `app/models.py`. -/
def PDF_POINTS_PER_INCH : ℚ := 72

/-- Python `int(...)` on a rational value: truncation toward zero. -/
def pyInt (q : ℚ) : ℤ :=
  if 0 ≤ q then ⌊q⌋ else -⌊-q⌋

/-- `pdf_points_to_emu` from `app/models.py`: scale by `914400 / 72` and
truncate to an integer. -/
def pdf_points_to_emu (points : ℚ) : ℤ :=
  pyInt (points * PPTX_EMU_PER_INCH / PDF_POINTS_PER_INCH)

/-- `emu_to_pdf_points` from `app/models.py`. -/
def emu_to_pdf_points (emu : ℤ) : ℚ :=
  emu * PDF_POINTS_PER_INCH / PPTX_EMU_PER_INCH

/-- `apply_margin` from `app/utils.py`: move the edges inward by the
margin, clamp `x0`/`y0` below at `0` and `x1`/`y1` above at the canvas
size, and on a collapsed dimension re-extend `x1`/`y1` to 50/20 points
past the adjusted origin (again capped at the canvas size). -/
def apply_margin (x0 y0 x1 y1 margin_x margin_y max_width max_height : ℚ) :
    ℚ × ℚ × ℚ × ℚ :=
  let newX0 := qmax 0 (x0 + margin_x)
  let newY0 := qmax 0 (y0 + margin_y)
  let newX1 := qmin max_width (x1 - margin_x)
  let newY1 := qmin max_height (y1 - margin_y)
  let newX1 := if newX1 ≤ newX0 then qmin max_width (newX0 + 50) else newX1
  let newY1 := if newY1 ≤ newY0 then qmin max_height (newY0 + 20) else newY1
  (newX0, newY0, newX1, newY1)

/-- `ensure_minimum_dimensions` from `app/layout.py`: widths below
45720 EMU and heights below 18288 EMU are extended to exactly the
minimum by moving `x1` / `y1`. -/
def ensure_minimum_dimensions (text_blocks : List EmuBlock) : List EmuBlock :=
  text_blocks.map (fun b =>
    let x1 := if b.x1 - b.x0 < 45720 then b.x0 + 45720 else b.x1
    let y1 := if b.y1 - b.y0 < 18288 then b.y0 + 18288 else b.y1
    ⟨b.x0, b.y0, x1, y1, b.text⟩)

/-- `_blocks_overlap_emu` from `app/layout.py`: plain bounding-box
intersection test. -/
def blocks_overlap_emu (block1 block2 : EmuBlock) : Bool :=
  !(block1.x1 ≤ block2.x0 || block2.x1 ≤ block1.x0 ||
    block1.y1 ≤ block2.y0 || block2.y1 ≤ block1.y0)

/-- `_resolve_overlap_emu` from `app/layout.py`: nudge the current block
below the existing one (gap 18288 EMU); if that passes the slide height,
nudge it to the right instead; if that passes the slide width, keep it in
place. -/
def resolve_overlap_emu (current existing : EmuBlock) : EmuBlock :=
  let width := current.x1 - current.x0
  let height := current.y1 - current.y0
  let newY0 := existing.y1 + 18288
  let newY1 := newY0 + height
  if 6858000 < newY1 then
    let newX0 := existing.x1 + 18288
    let newX1 := newX0 + width
    if 12192000 < newX1 then current
    else ⟨newX0, current.y0, newX1, current.y1, current.text⟩
  else ⟨current.x0, newY0, current.x1, newY1, current.text⟩

/-- Strict comparison on the key `(y0, x0)` used by the EMU-space sort in
`optimize_text_layout`. -/
def emuKeyLt (a b : EmuBlock) : Bool :=
  decide (a.y0 < b.y0 ∨ (a.y0 = b.y0 ∧ a.x0 < b.x0))

/-- Stable insertion for the EMU-space sort. -/
def insertEmu (b : EmuBlock) : List EmuBlock → List EmuBlock
  | [] => [b]
  | c :: rest => if emuKeyLt b c then b :: c :: rest else c :: insertEmu b rest

/-- The stable sort by `(y0, x0)` performed by `optimize_text_layout`. -/
def sortEmuBlocks (blocks : List EmuBlock) : List EmuBlock :=
  blocks.foldl (fun acc b => insertEmu b acc) []

/-- Collision-resolution fold of `optimize_text_layout`: the incoming
block is adjusted against every already placed block in order. -/
def adjustAgainst (placed : List EmuBlock) (b : EmuBlock) : EmuBlock :=
  placed.foldl
    (fun a p => if blocks_overlap_emu a p then resolve_overlap_emu a p else a) b

/-- Main loop of `optimize_text_layout` over the sorted blocks. -/
def optimizeGo : List EmuBlock → List EmuBlock → List EmuBlock
  | [], placed => placed
  | b :: rest, placed => optimizeGo rest (placed ++ [adjustAgainst placed b])

/-- `optimize_text_layout` from `app/layout.py`. -/
def optimize_text_layout (text_blocks : List EmuBlock) : List EmuBlock :=
  if text_blocks.length < 2 then text_blocks
  else optimizeGo (sortEmuBlocks text_blocks) []

/-- The shape data of an EMU block — width, height and text — used to
state that layout optimization only moves blocks. -/
def emuDims (b : EmuBlock) : ℤ × ℤ × String :=
  (b.x1 - b.x0, b.y1 - b.y0, b.text)

/-- Python `str.isupper()` restricted to ASCII text: at least one letter,
and every letter is uppercase. -/
def pyIsUpper (s : String) : Bool :=
  s.data.any (·.isAlpha) && s.data.all (fun c => !c.isAlpha || c.isUpper)

/-- Match of the anchored pattern `^\d+\.?\s+[A-Z]` used by
`_looks_like_title`: one or more digits, an optional period, at least one
whitespace character, then an ASCII uppercase letter. -/
def numberedSectionMatch (l : List Char) : Bool :=
  let ds := l.takeWhile Char.isDigit
  let r1 := l.dropWhile Char.isDigit
  if ds = [] then false
  else
    let r2 := match r1 with
      | '.' :: t => t
      | _ => r1
    let ws := r2.takeWhile pyIsSpace
    let r3 := r2.dropWhile pyIsSpace
    if ws = [] then false
    else
      match r3 with
      | d :: _ => d.isUpper
      | [] => false

/-- The section keywords tested by `str.startswith` in
`_looks_like_title`. -/
def sectionKeywords : List String :=
  ["Chapter", "Section", "Part", "Article"]

/-- `_looks_like_title` from `app/pptx_generator.py`. -/
def looks_like_title (text : String) : Bool :=
  if text = "" then false
  else
    (pyIsUpper text && decide (text.length < 80)) ||
    sectionKeywords.any (fun k => pyStartsW text k) ||
    numberedSectionMatch text.data ||
    (decide (text.length < 60) &&
      !(pyEndsW (pyRstrip text) "." || pyEndsW (pyRstrip text) "!" ||
        pyEndsW (pyRstrip text) "?"))

/-- The title condition as the specification words it (claim C9): the
line is short and fully uppercase, or starts with a section keyword, or
matches the numbered-section pattern, or is short without sentence-ending
punctuation.  Stated without the source's nonemptiness guard, to compare
against `looks_like_title`. -/
def specTitleCond (line : String) : Bool :=
  (pyIsUpper line && decide (line.length < 80)) ||
  sectionKeywords.any (fun k => pyStartsW line k) ||
  numberedSectionMatch line.data ||
  (decide (line.length < 60) &&
    !(pyEndsW (pyRstrip line) "." || pyEndsW (pyRstrip line) "!" ||
      pyEndsW (pyRstrip line) "?"))

/-- Python `'\n'.join(...)` over character-list segments. -/
def joinNl (segs : List (List Char)) : List Char :=
  match segs with
  | [] => []
  | h :: t => h ++ (t.map (fun s => '\n' :: s)).flatten

/-- `_extract_title_and_content` from `app/pptx_generator.py`: split on
newlines, strip the first line, and when it looks like a title return it
together with the stripped remainder; otherwise return no title and the
unchanged text. -/
def extract_title_and_content (text : String) : String × String :=
  match splitNl text.data with
  | [] => ("", "")
  | f :: rest =>
    let firstLine := pyStrip ⟨f⟩
    if looks_like_title firstLine then
      (firstLine, pyStrip ⟨joinNl rest⟩)
    else ("", text)

/-- The per-block adjustment performed by `ensure_minimum_dimensions`,
expressed with `max`: `x1` becomes `max x1 (x0 + 45720)` and `y1` becomes
`max y1 (y0 + 18288)`. -/
def minDimAdjust (b : EmuBlock) : EmuBlock :=
  ⟨b.x0, b.y0, max b.x1 (b.x0 + 45720), max b.y1 (b.y0 + 18288), b.text⟩

/-- The stripped first line of a text, as `_extract_title_and_content`
computes it. -/
def firstLineOf (text : String) : String :=
  pyStrip ⟨(splitNl text.data).headD []⟩

/-- The stripped newline-join of all lines after the first, the body part
produced by `_extract_title_and_content` when a title is found. -/
def restLinesOf (text : String) : String :=
  pyStrip ⟨joinNl (splitNl text.data).tail⟩

theorem pyStripL_idem (l : List Char) : pyStripL (pyStripL l) = pyStripL l := by
  unfold pyStripL
  have h1 : List.dropWhile pyIsSpace
      (List.rdropWhile pyIsSpace (List.dropWhile pyIsSpace l)) =
      List.rdropWhile pyIsSpace (List.dropWhile pyIsSpace l) := by
    rw [List.dropWhile_eq_self_iff]
    intro hl
    have hpre := List.rdropWhile_prefix pyIsSpace (List.dropWhile pyIsSpace l)
    have hlen : 0 < (List.dropWhile pyIsSpace l).length :=
      lt_of_lt_of_le hl hpre.length_le
    have hget := hpre.getElem hl
    have hnot := List.dropWhile_get_zero_not pyIsSpace l hlen
    simp only [List.get_eq_getElem] at hnot ⊢
    rw [hget]
    exact hnot
  rw [h1, List.rdropWhile_idempotent]

theorem pyStrip_idem (s : String) : pyStrip (pyStrip s) = pyStrip s := by
  simp [pyStrip, pyStripL_idem]

/-- Claim C3: `has_sufficient_text` returns true exactly when the summed
lengths of the whitespace-trimmed block texts reach 20; a total of 19
gives false, a total of 20 gives true, and the empty list gives false. -/
theorem c3_has_sufficient_text_threshold :
    (∀ blocks : List TextBlock,
      (has_sufficient_text blocks = true ↔
        20 ≤ (blocks.map (fun b => (pyStrip b.text).length)).sum)) ∧
    has_sufficient_text [] = false ∧
    (∀ blocks : List TextBlock,
      (blocks.map (fun b => (pyStrip b.text).length)).sum = 19 →
        has_sufficient_text blocks = false) ∧
    (∀ blocks : List TextBlock,
      (blocks.map (fun b => (pyStrip b.text).length)).sum = 20 →
        has_sufficient_text blocks = true) := by
  refine ⟨fun blocks => ?_, by decide, fun blocks h => ?_, fun blocks h => ?_⟩
  · simp [has_sufficient_text, MINIMUM_TEXT_THRESHOLD]
  · simp [has_sufficient_text, MINIMUM_TEXT_THRESHOLD, h]
  · simp [has_sufficient_text, MINIMUM_TEXT_THRESHOLD, h]

/-- Witness for C3: a single block of 19 non-space characters is
insufficient and a single block of 20 is sufficient. -/
theorem c3_witness :
    ([(⟨0, 0, 1, 1, "aaaaaaaaaaaaaaaaaaa"⟩ : TextBlock)].map
        (fun b => (pyStrip b.text).length)).sum = 19 ∧
    has_sufficient_text [⟨0, 0, 1, 1, "aaaaaaaaaaaaaaaaaaa"⟩] = false ∧
    ([(⟨0, 0, 1, 1, "aaaaaaaaaaaaaaaaaaaa"⟩ : TextBlock)].map
        (fun b => (pyStrip b.text).length)).sum = 20 ∧
    has_sufficient_text [⟨0, 0, 1, 1, "aaaaaaaaaaaaaaaaaaaa"⟩] = true :=
  ⟨by decide,
   c3_has_sufficient_text_threshold.2.2.1 _ (by decide),
   by decide,
   c3_has_sufficient_text_threshold.2.2.2 _ (by decide)⟩

/-- Claim C7: `ensure_minimum_dimensions` maps each block to the same
block with `x1` extended to at least `x0 + 45720` and `y1` to at least
`y0 + 18288`; origins and text are untouched, nothing ever shrinks, and
blocks at or above the minimum keep their extents exactly. -/
theorem c7_ensure_minimum_dimensions (bs : List EmuBlock) :
    ensure_minimum_dimensions bs = bs.map minDimAdjust ∧
    (ensure_minimum_dimensions bs).length = bs.length ∧
    ∀ b : EmuBlock,
      (minDimAdjust b).x0 = b.x0 ∧ (minDimAdjust b).y0 = b.y0 ∧
      (minDimAdjust b).text = b.text ∧
      b.x1 ≤ (minDimAdjust b).x1 ∧ b.y1 ≤ (minDimAdjust b).y1 ∧
      45720 ≤ (minDimAdjust b).x1 - b.x0 ∧ 18288 ≤ (minDimAdjust b).y1 - b.y0 ∧
      (45720 ≤ b.x1 - b.x0 → (minDimAdjust b).x1 = b.x1) ∧
      (b.x1 - b.x0 < 45720 → (minDimAdjust b).x1 - b.x0 = 45720) ∧
      (18288 ≤ b.y1 - b.y0 → (minDimAdjust b).y1 = b.y1) ∧
      (b.y1 - b.y0 < 18288 → (minDimAdjust b).y1 - b.y0 = 18288) := by
  refine ⟨?_, ?_, fun b => ?_⟩
  · unfold ensure_minimum_dimensions minDimAdjust
    apply List.map_congr_left
    intro b _
    have hx : (if b.x1 - b.x0 < 45720 then b.x0 + 45720 else b.x1) =
        max b.x1 (b.x0 + 45720) := by
      split <;> rename_i h
      · exact (max_eq_right (by linarith)).symm
      · exact (max_eq_left (by linarith)).symm
    have hy : (if b.y1 - b.y0 < 18288 then b.y0 + 18288 else b.y1) =
        max b.y1 (b.y0 + 18288) := by
      split <;> rename_i h
      · exact (max_eq_right (by linarith)).symm
      · exact (max_eq_left (by linarith)).symm
    simp [hx, hy]
  · simp [ensure_minimum_dimensions]
  · unfold minDimAdjust
    refine ⟨rfl, rfl, rfl, le_max_left _ _, le_max_left _ _, ?_, ?_, ?_, ?_, ?_, ?_⟩
    · have := le_max_right b.x1 (b.x0 + 45720); linarith
    · have := le_max_right b.y1 (b.y0 + 18288); linarith
    · intro h; simp only []; exact max_eq_left (by linarith)
    · intro h
      have : max b.x1 (b.x0 + 45720) = b.x0 + 45720 := max_eq_right (by linarith)
      simp [this]
    · intro h; exact max_eq_left (by linarith)
    · intro h
      have : max b.y1 (b.y0 + 18288) = b.y0 + 18288 := max_eq_right (by linarith)
      simp [this]

/-- Witness for C7: a 10×10 EMU block is expanded to exactly the
45720×18288 minimum. -/
theorem c7_witness :
    (⟨0, 0, 10, 10, "t"⟩ : EmuBlock).x1 - (⟨0, 0, 10, 10, "t"⟩ : EmuBlock).x0 < 45720 ∧
    (minDimAdjust ⟨0, 0, 10, 10, "t"⟩).x1 - (⟨0, 0, 10, 10, "t"⟩ : EmuBlock).x0 = 45720 ∧
    ensure_minimum_dimensions [⟨0, 0, 10, 10, "t"⟩] = [⟨0, 0, 10, 10, "t"⟩].map minDimAdjust :=
  ⟨by decide,
   ((c7_ensure_minimum_dimensions [⟨0, 0, 10, 10, "t"⟩]).2.2
     ⟨0, 0, 10, 10, "t"⟩).2.2.2.2.2.2.2.2.1 (by decide),
   (c7_ensure_minimum_dimensions [⟨0, 0, 10, 10, "t"⟩]).1⟩

/-- Claim C8: converting a non-negative point value to EMU (truncating)
and back to points lands within 0.01 of the original value. -/
theorem c8_round_trip (p : ℚ) (hp : 0 ≤ p) :
    |emu_to_pdf_points (pdf_points_to_emu p) - p| ≤ 1 / 100 := by
  have harg : p * PPTX_EMU_PER_INCH / PDF_POINTS_PER_INCH = 12700 * p := by
    unfold PPTX_EMU_PER_INCH PDF_POINTS_PER_INCH; ring
  have hpos : (0 : ℚ) ≤ p * PPTX_EMU_PER_INCH / PDF_POINTS_PER_INCH := by
    rw [harg]; positivity
  unfold pdf_points_to_emu pyInt
  rw [if_pos hpos, harg]
  have h1 : (⌊12700 * p⌋ : ℚ) ≤ 12700 * p := Int.floor_le _
  have h2 : 12700 * p < (⌊12700 * p⌋ : ℚ) + 1 := Int.lt_floor_add_one _
  have hval : emu_to_pdf_points ⌊12700 * p⌋ = (⌊12700 * p⌋ : ℚ) / 12700 := by
    unfold emu_to_pdf_points PPTX_EMU_PER_INCH PDF_POINTS_PER_INCH; ring
  rw [hval]
  rw [abs_le]
  constructor
  · nlinarith
  · nlinarith

/-- Witness for C8: the round trip at `p = 1` point. -/
theorem c8_witness :
    (0 : ℚ) ≤ 1 ∧ |emu_to_pdf_points (pdf_points_to_emu 1) - 1| ≤ 1 / 100 :=
  ⟨by norm_num, c8_round_trip 1 (by norm_num)⟩

theorem qmin_eq_min (a b : ℚ) : qmin a b = min a b := by
  unfold qmin
  rw [min_def]

theorem qmax_eq_max (a b : ℚ) : qmax a b = max a b := by
  unfold qmax
  rw [max_def]

theorem qabs_eq_abs (q : ℚ) : qabs q = |q| := by
  unfold qabs
  split
  · rename_i h
    exact (abs_of_nonneg h).symm
  · rename_i h
    exact (abs_of_neg (not_le.mp h)).symm

theorem dehyphGo_no_newline (l : List Char) (hl : l.contains '\n' = false) :
    dehyphGo .s0 l = l ∧ (∀ a, dehyphGo (.s1 a) l = a :: l) ∧
    (∀ a, dehyphGo (.s2 a) l = a :: '-' :: l) ∧
    (∀ a pend, dehyphGo (.s3 a pend false) l = a :: '-' :: pend ++ l) := by
  induction l with
  | nil =>
    refine ⟨rfl, fun a => rfl, fun a => rfl, fun a pend => ?_⟩
    simp [dehyphGo]
  | cons c cs ih =>
    have hc : ¬c = '\n' := by
      intro h
      rw [h] at hl
      simp [List.contains_cons] at hl
    have hcs : cs.contains '\n' = false := by
      simp only [List.contains_cons, Bool.or_eq_false_iff] at hl
      exact hl.2
    have hdec : ((c = '\n') : Bool) = false := by
      simpa using hc
    obtain ⟨ih0, ih1, ih2, ih3⟩ := ih hcs
    refine ⟨?_, fun a => ?_, fun a => ?_, fun a pend => ?_⟩
    · by_cases hA : c.isAlpha = true <;>
        simp [dehyphGo, hA, ih0, ih1]
    · by_cases hD : c = '-' <;> by_cases hA : c.isAlpha = true <;>
        simp [dehyphGo, hD, hA, ih0, ih1, ih2]
    · by_cases hS : pyIsSpace c = true <;> by_cases hA : c.isAlpha = true <;>
        simp [dehyphGo, hS, hA, hdec, ih0, ih1, ih3]
    · by_cases hS : pyIsSpace c = true <;> by_cases hA : c.isAlpha = true <;>
        simp [dehyphGo, hS, hA, hdec, ih0, ih1, ih3, List.append_assoc]

/-- Counterexample for C4: on `a-` newline `b-` newline `c` the scanner
rewrites only the first hyphenation (the continuation letter `b` is
consumed by the match), so the output still contains a
letter/hyphen/newline/letter sequence that was not collapsed. -/
theorem c4_counterexample :
    dehyphenate_text "a-\nb-\nc" = "ab-\nc" ∧
    hasHyphenPattern (dehyphenate_text "a-\nb-\nc").data = true := by
  constructor
  · decide
  · decide

/-- Claim C4 (amended): dehyphenation never fires without a newline (in
particular mid-word hyphens such as in `well-known` are untouched), it
collapses `exam-` newline `ple` to `example` leaving no pattern behind,
and it does not fire when a non-letter follows the line break; but the
substitution is a single left-to-right non-overlapping pass: a failed
attempt consumes nothing (a fresh attempt starts at the letter that
ended it, as in `b- c-` newline `d` becoming `b- cd`), while a
successful match consumes its continuation letter, so a chained
hyphenation directly continuing at that letter can survive. -/
theorem c4_amended :
    (∀ l : List Char, l.contains '\n' = false → dehyphGo .s0 l = l) ∧
    dehyphenate_text "exam-\nple" = "example" ∧
    hasHyphenPattern (dehyphenate_text "exam-\nple").data = false ∧
    dehyphenate_text "well-known" = "well-known" ∧
    dehyphenate_text "a-\n5x" = "a-\n5x" ∧
    dehyphenate_text "b- c-\nd" = "b- cd" := by
  refine ⟨fun l hl => (dehyphGo_no_newline l hl).1, by decide, by decide, by decide,
    by decide, by decide⟩

/-- Witness for C4 (amended): the no-newline identity applied to the
concrete string `well-known`. -/
theorem c4_witness :
    ("well-known".data.contains '\n' = false) ∧
    dehyphGo .s0 "well-known".data = "well-known".data :=
  ⟨by decide, c4_amended.1 "well-known".data (by decide)⟩

/-- Counterexample for C5: for the block `(95, 95, 96, 96)` with margins
`2` on a `100 × 100` canvas both dimensions collapse, yet the forced
rectangle `(97, 97, 100, 100)` is only `3` wide and `3` high — the
50-point minimum width cannot fit inside the canvas and is truncated. -/
theorem c5_counterexample :
    apply_margin 95 95 96 96 2 2 100 100 = (97, 97, 100, 100) ∧
    qmin (100 : ℚ) (96 - 2) ≤ qmax 0 (95 + 2) ∧
    (100 : ℚ) - 97 < 50 ∧ (100 : ℚ) - 97 < 20 := by
  with_unfolding_all decide

/-- Claim C5 (amended): `apply_margin` clamps the adjusted origin below
at `0` and the adjusted far edge above at the canvas size; on a collapsed
dimension it re-extends the far edge to `min(canvas, origin + 50)` (resp.
`+ 20`), so the forced width is exactly 50 points (height 20 points) only
when that much room remains before the canvas edge. -/
theorem c5_amended (x0 y0 x1 y1 mx my W H : ℚ) :
    0 ≤ (apply_margin x0 y0 x1 y1 mx my W H).1 ∧
    0 ≤ (apply_margin x0 y0 x1 y1 mx my W H).2.1 ∧
    (apply_margin x0 y0 x1 y1 mx my W H).2.2.1 ≤ W ∧
    (apply_margin x0 y0 x1 y1 mx my W H).2.2.2 ≤ H ∧
    (qmin W (x1 - mx) ≤ qmax 0 (x0 + mx) →
      (apply_margin x0 y0 x1 y1 mx my W H).2.2.1 = qmin W (qmax 0 (x0 + mx) + 50)) ∧
    (qmin W (x1 - mx) ≤ qmax 0 (x0 + mx) → qmax 0 (x0 + mx) + 50 ≤ W →
      (apply_margin x0 y0 x1 y1 mx my W H).2.2.1 -
        (apply_margin x0 y0 x1 y1 mx my W H).1 = 50) ∧
    (¬ qmin W (x1 - mx) ≤ qmax 0 (x0 + mx) →
      (apply_margin x0 y0 x1 y1 mx my W H).2.2.1 = qmin W (x1 - mx)) ∧
    (qmin H (y1 - my) ≤ qmax 0 (y0 + my) →
      (apply_margin x0 y0 x1 y1 mx my W H).2.2.2 = qmin H (qmax 0 (y0 + my) + 20)) ∧
    (qmin H (y1 - my) ≤ qmax 0 (y0 + my) → qmax 0 (y0 + my) + 20 ≤ H →
      (apply_margin x0 y0 x1 y1 mx my W H).2.2.2 -
        (apply_margin x0 y0 x1 y1 mx my W H).2.1 = 20) ∧
    (¬ qmin H (y1 - my) ≤ qmax 0 (y0 + my) →
      (apply_margin x0 y0 x1 y1 mx my W H).2.2.2 = qmin H (y1 - my)) := by
  unfold apply_margin
  simp only [qmin_eq_min, qmax_eq_max]
  refine ⟨le_max_left _ _, le_max_left _ _, ?_, ?_, ?_, ?_, ?_, ?_, ?_, ?_⟩
  · split <;> exact min_le_left _ _
  · split <;> exact min_le_left _ _
  · intro h
    rw [if_pos h]
  · intro h hroom
    rw [if_pos h, min_eq_right hroom]
    ring
  · intro h
    rw [if_neg h]
  · intro h
    rw [if_pos h]
  · intro h hroom
    rw [if_pos h, min_eq_right hroom]
    ring
  · intro h
    rw [if_neg h]

/-- Witness for C5 (amended): at `(40, 45, 50, 55)` with margins `10` on
a `100 × 100` canvas both dimensions collapse with room to spare, and the
forced sizes are exactly 50 and 20 points. -/
theorem c5_witness :
    (qmin (100 : ℚ) (50 - 10) ≤ qmax 0 (40 + 10) ∧
      (apply_margin 40 45 50 55 10 10 100 100).2.2.1 -
        (apply_margin 40 45 50 55 10 10 100 100).1 = 50) ∧
    (qmin (100 : ℚ) (55 - 10) ≤ qmax 0 (45 + 10) ∧
      (apply_margin 40 45 50 55 10 10 100 100).2.2.2 -
        (apply_margin 40 45 50 55 10 10 100 100).2.1 = 20) :=
  ⟨⟨by with_unfolding_all decide,
    (c5_amended 40 45 50 55 10 10 100 100).2.2.2.2.2.1
      (by with_unfolding_all decide) (by with_unfolding_all decide)⟩,
   ⟨by with_unfolding_all decide,
    (c5_amended 40 45 50 55 10 10 100 100).2.2.2.2.2.2.2.2.1
      (by with_unfolding_all decide) (by with_unfolding_all decide)⟩⟩

/-- Counterexample for C6: the piece following the one-character piece
`a` is 51 lowercase letters — it does not start with an uppercase letter,
a bullet or a dash, and the previous piece is certainly not long — yet
the code inserts a paragraph break, because its length test does not
consult the previous piece at all. -/
theorem c6_counterexample :
    combine_content_text
        ["a", "bbbbbbbbbbbbbbbbbbbbbbbbbbbbbbbbbbbbbbbbbbbbbbbbbbb"] =
      "a\n\nbbbbbbbbbbbbbbbbbbbbbbbbbbbbbbbbbbbbbbbbbbbbbbbbbbb" ∧
    ("a" : String).length = 1 ∧
    (pyFront "bbbbbbbbbbbbbbbbbbbbbbbbbbbbbbbbbbbbbbbbbbbbbbbbbbb").isUpper
      = false ∧
    pyStartsW "bbbbbbbbbbbbbbbbbbbbbbbbbbbbbbbbbbbbbbbbbbbbbbbbbbb"
      bulletMarker = false ∧
    pyStartsW "bbbbbbbbbbbbbbbbbbbbbbbbbbbbbbbbbbbbbbbbbbbbbbbbbbb"
      "-" = false ∧
    combine_content_text
        ["a", "bbbbbbbbbbbbbbbbbbbbbbbbbbbbbbbbbbbbbbbbbbbbbbbbbbb"] ≠
      "a bbbbbbbbbbbbbbbbbbbbbbbbbbbbbbbbbbbbbbbbbbbbbbbbbbb" := by
  refine ⟨by decide, by decide, by decide, by decide, by decide, by decide⟩

/-- Claim C6 (amended): two stripped nonempty pieces are joined with a
paragraph break exactly when the second starts with an uppercase letter
and the first ends with a period, or the second is longer than 50
characters (irrespective of the first piece's length), or the second
starts with the bullet marker or a dash; otherwise with a single space. -/
theorem c6_amended (p q : String) (hp : pyStrip p = p) (hp' : p ≠ "")
    (hq : pyStrip q = q) (hq' : q ≠ "") :
    combine_content_text [p, q] =
      if combineBreak p q then p ++ ("\n\n" ++ q) else p ++ (" " ++ q) := by
  have h1 : combineStep [] p = [p] := by
    unfold combineStep
    rw [hp]
    simp [hp']
  have h2 : combineStep [p] q =
      [p, (if combineBreak p q then "\n\n" else " ") ++ q] := by
    unfold combineStep
    rw [hq]
    simp [hq']
  unfold combine_content_text
  simp only [List.foldl, h1, h2]
  by_cases hb : combineBreak p q = true
  · simp [hb, String.join]
  · simp only [Bool.not_eq_true] at hb
    simp [hb, String.join]

/-- Witness for C6 (amended): the stripped nonempty pieces `x` and `y`
satisfy no break condition and are joined with a single space. -/
theorem c6_witness :
    pyStrip "x" = "x" ∧ ("x" : String) ≠ "" ∧ pyStrip "y" = "y" ∧
    ("y" : String) ≠ "" ∧
    combine_content_text ["x", "y"] =
      (if combineBreak "x" "y" then "x" ++ ("\n\n" ++ "y")
       else "x" ++ (" " ++ "y")) :=
  ⟨by decide, by decide, by decide, by decide,
   c6_amended "x" "y" (by decide) (by decide) (by decide) (by decide)⟩

theorem splitNl_ne_nil (l : List Char) : splitNl l ≠ [] := by
  cases l with
  | nil => simp [splitNl]
  | cons c cs =>
    rcases hsp : splitNl cs with _ | ⟨a, t⟩
    · simp [splitNl, hsp]
    · simp only [splitNl, hsp]
      split <;> simp

/-- Counterexample for C9: when the first line strips to the empty
string, the spec's fourth condition (short, no sentence-ending
punctuation) holds for it, yet the code produces no title and returns
the whole text as body. -/
theorem c9_counterexample :
    extract_title_and_content " \nBody text here." = ("", " \nBody text here.") ∧
    firstLineOf " \nBody text here." = "" ∧
    specTitleCond "" = true ∧
    ("" : String).length < 60 := by
  refine ⟨by decide, by decide, by decide, by decide⟩

/-- Claim C9 (amended): the stripped first line becomes the title — with
the rest of the text, stripped, as body — exactly when it is nonempty and
satisfies the spec's title conditions (short fully-uppercase, section
keyword, numbered-section pattern, or short without sentence-ending
punctuation); otherwise no title is produced and the whole text is
returned as body. -/
theorem c9_amended (text : String) :
    (looks_like_title (firstLineOf text) =
      (decide (¬ firstLineOf text = "") && specTitleCond (firstLineOf text))) ∧
    ((looks_like_title (firstLineOf text) = true ∧
        extract_title_and_content text = (firstLineOf text, restLinesOf text)) ∨
      (looks_like_title (firstLineOf text) = false ∧
        extract_title_and_content text = ("", text))) := by
  constructor
  · unfold looks_like_title specTitleCond
    by_cases h : firstLineOf text = ""
    · simp [h]
    · simp [h]
  · obtain ⟨f, rest, hsplit⟩ : ∃ f rest, splitNl text.data = f :: rest := by
      cases h : splitNl text.data with
      | nil => exact absurd h (splitNl_ne_nil _)
      | cons a t => exact ⟨a, t, rfl⟩
    have hfl : firstLineOf text = pyStrip ⟨f⟩ := by
      unfold firstLineOf
      rw [hsplit]
      rfl
    have hrl : restLinesOf text = pyStrip ⟨joinNl rest⟩ := by
      unfold restLinesOf
      rw [hsplit]
      rfl
    unfold extract_title_and_content
    rw [hsplit]
    by_cases ht : looks_like_title (pyStrip ⟨f⟩) = true
    · left
      rw [hfl, hrl]
      exact ⟨ht, by simp [ht]⟩
    · right
      rw [hfl]
      simp only [Bool.not_eq_true] at ht
      exact ⟨ht, by simp [ht]⟩

theorem mergeLoop_nil (threshold : ℚ) : mergeLoop threshold [] = [] := by
  rw [mergeLoop]

theorem mergeLoop_cons (threshold : ℚ) (b : TextBlock) (rest : List TextBlock) :
    mergeLoop threshold (b :: rest) =
      (absorbBlocks b threshold rest).1 ::
        mergeLoop threshold (absorbBlocks b threshold rest).2 := by
  rw [mergeLoop]

theorem blocks_overlap_comm (b1 b2 : TextBlock) (θ : ℚ) :
    blocks_overlap b1 b2 θ = blocks_overlap b2 b1 θ := by
  unfold blocks_overlap
  simp only [qmin_eq_min, qmax_eq_max]
  rw [min_comm b1.x1 b2.x1, max_comm b1.x0 b2.x0, min_comm b1.y1 b2.y1,
    max_comm b1.y0 b2.y0,
    min_comm ((b1.x1 - b1.x0) * (b1.y1 - b1.y0)) ((b2.x1 - b2.x0) * (b2.y1 - b2.y0))]

/-- Counterexample for C1: with threshold `1/2`, merging the three blocks
`(0,0,1,1)`, `(0,2,1,3)`, `(0,0,1,3)` absorbs the third into the first —
growing its bounding box to `(0,0,1,3)` after the second block has
already been compared — so the output still contains two blocks whose
overlap ratio is `1 ≥ 1/2`. -/
theorem c1_counterexample :
    merge_overlapping_blocks
        [⟨0, 0, 1, 1, "a"⟩, ⟨0, 2, 1, 3, "b"⟩, ⟨0, 0, 1, 3, "c"⟩] (1/2) =
      [⟨0, 0, 1, 3, "a\nc"⟩, ⟨0, 2, 1, 3, "b"⟩] ∧
    blocks_overlap ⟨0, 0, 1, 3, "a\nc"⟩ ⟨0, 2, 1, 3, "b"⟩ (1/2) = true := by
  constructor
  · unfold merge_overlapping_blocks
    rw [if_neg (by decide)]
    have h1 : absorbBlocks ⟨0, 0, 1, 1, "a"⟩ (1/2)
        [⟨0, 2, 1, 3, "b"⟩, ⟨0, 0, 1, 3, "c"⟩] =
        (⟨0, 0, 1, 3, "a\nc"⟩, [⟨0, 2, 1, 3, "b"⟩]) := by
      with_unfolding_all decide
    have h2 : absorbBlocks ⟨0, 2, 1, 3, "b"⟩ (1/2) ([] : List TextBlock) =
        (⟨0, 2, 1, 3, "b"⟩, []) := rfl
    rw [mergeLoop_cons, h1, mergeLoop_cons, h2, mergeLoop_nil]
  · with_unfolding_all decide

/-- Claim C1 (amended): for a two-block input the invariant does hold —
either the blocks merge into a single block, or both survive and neither
overlaps the other at a ratio reaching the threshold.  For three or more
blocks a merge can grow a bounding box past blocks already compared, so
pairs violating the threshold can survive. -/
theorem c1_amended (b1 b2 : TextBlock) (θ : ℚ) :
    (blocks_overlap b1 b2 θ = true ∧
      merge_overlapping_blocks [b1, b2] θ = [merge_two_blocks b1 b2]) ∨
    (blocks_overlap b1 b2 θ = false ∧ blocks_overlap b2 b1 θ = false ∧
      merge_overlapping_blocks [b1, b2] θ = [b1, b2]) := by
  have hlen : ¬ ([b1, b2] : List TextBlock).length < 2 := by simp
  unfold merge_overlapping_blocks
  rw [if_neg hlen, mergeLoop_cons]
  by_cases h : blocks_overlap b1 b2 θ = true
  · left
    refine ⟨h, ?_⟩
    have habs : absorbBlocks b1 θ [b2] = (merge_two_blocks b1 b2, []) := by
      simp [absorbBlocks, h]
    rw [habs, mergeLoop_nil]
  · right
    have hff : blocks_overlap b1 b2 θ = false := by
      simpa using h
    have hff2 : blocks_overlap b2 b1 θ = false := by
      rw [← blocks_overlap_comm]
      exact hff
    refine ⟨hff, hff2, ?_⟩
    have habs : absorbBlocks b1 θ [b2] = (b1, [b2]) := by
      simp [absorbBlocks, hff]
    rw [habs, mergeLoop_cons]
    have habs2 : absorbBlocks b2 θ ([] : List TextBlock) = (b2, []) := rfl
    rw [habs2, mergeLoop_nil]

set_option maxRecDepth 100000 in
/-- Counterexample for C2: the normalizer joins the block texts `ab-`
and a 51-letter piece with a paragraph break; a second application then
dehyphenates across that break and changes the text, so the normalizer is
not idempotent. -/
theorem c2_counterexample :
    normalize_and_group_text_blocks
        [⟨0, 0, 10, 10, "ab-"⟩, ⟨0, 5, 10, 10, "ccccccccccccccccccccccccccccccccccccccccccccccccccc"⟩] true =
      [⟨50, 0, 700, 10, "ab-\n\nccccccccccccccccccccccccccccccccccccccccccccccccccc"⟩] ∧
    normalize_and_group_text_blocks
        (normalize_and_group_text_blocks
          [⟨0, 0, 10, 10, "ab-"⟩, ⟨0, 5, 10, 10, "ccccccccccccccccccccccccccccccccccccccccccccccccccc"⟩] true) true =
      [⟨50, 0, 700, 10, "abccccccccccccccccccccccccccccccccccccccccccccccccccc"⟩] ∧
    normalize_and_group_text_blocks
        (normalize_and_group_text_blocks
          [⟨0, 0, 10, 10, "ab-"⟩, ⟨0, 5, 10, 10, "ccccccccccccccccccccccccccccccccccccccccccccccccccc"⟩] true) true ≠
      normalize_and_group_text_blocks
        [⟨0, 0, 10, 10, "ab-"⟩, ⟨0, 5, 10, 10, "ccccccccccccccccccccccccccccccccccccccccccccccccccc"⟩] true := by
  refine ⟨?_, ?_, ?_⟩
  · with_unfolding_all decide
  · with_unfolding_all decide
  · with_unfolding_all decide

/-- Claim C2 (amended): the normalizer is idempotent on a single already
normalized block — a block spanning `x = 50 .. 700` whose text is a fixed
point of the per-block text cleanup maps to itself — but not in general:
a second application can dehyphenate across the paragraph breaks the
grouping inserted between pieces, or re-merge regions. -/
theorem c2_amended (y0 y1 : ℚ) (t : String)
    (h1 : normalize_text t true = t) (h2 : pyStrip t ≠ "") :
    normalize_and_group_text_blocks [⟨50, y0, 700, y1, t⟩] true =
      [⟨50, y0, 700, y1, t⟩] := by
  have htne : t ≠ "" := by
    intro h
    apply h2
    rw [h]
    rfl
  have hexp : normalize_text t true =
      pyStrip ⟨dehyphGo .s0
        (squeezeNl (stripBeforeNl (stripAfterNl (collapseSpTab t.data))))⟩ := by
    unfold normalize_text
    rw [if_neg htne]
    rfl
  have ht : pyStrip t = t := by
    calc pyStrip t = pyStrip (normalize_text t true) := by rw [h1]
    _ = pyStrip (pyStrip ⟨dehyphGo .s0
          (squeezeNl (stripBeforeNl (stripAfterNl (collapseSpTab t.data))))⟩) := by
        rw [hexp]
    _ = pyStrip ⟨dehyphGo .s0
          (squeezeNl (stripBeforeNl (stripAfterNl (collapseSpTab t.data))))⟩ :=
        pyStrip_idem _
    _ = normalize_text t true := hexp.symm
    _ = t := h1
  simp [normalize_and_group_text_blocks, group_into_content_blocks, groupAux,
    combine_content_text, combineStep, sort_by_reading_order, insertReading,
    List.filterMap, h1, h2, ht, htne, String.join]

/-- Witness for C2 (amended): the single-word block text `hello` is a
fixed point of the cleanup and its block is mapped to itself. -/
theorem c2_witness :
    normalize_text "hello" true = "hello" ∧ pyStrip "hello" ≠ "" ∧
    normalize_and_group_text_blocks [⟨50, 3, 700, 7, "hello"⟩] true =
      [⟨50, 3, 700, 7, "hello"⟩] :=
  ⟨by decide, by decide,
   c2_amended 3 7 "hello" (by decide) (by decide)⟩

theorem resolve_overlap_emu_dims (c e : EmuBlock) :
    emuDims (resolve_overlap_emu c e) = emuDims c := by
  simp only [resolve_overlap_emu]
  split_ifs with h1 h2
  · rfl
  · simp [emuDims, Prod.mk.injEq]
  · simp [emuDims, Prod.mk.injEq]

theorem overlapStep_dims (a p : EmuBlock) :
    emuDims (if blocks_overlap_emu a p then resolve_overlap_emu a p else a) =
      emuDims a := by
  split
  · exact resolve_overlap_emu_dims _ _
  · rfl

theorem adjustAgainst_dims (placed : List EmuBlock) (b : EmuBlock) :
    emuDims (adjustAgainst placed b) = emuDims b := by
  unfold adjustAgainst
  induction placed generalizing b with
  | nil => rfl
  | cons p rest ih =>
    rw [List.foldl_cons, ih, overlapStep_dims]

theorem optimizeGo_dims (l placed : List EmuBlock) :
    (optimizeGo l placed).map emuDims = placed.map emuDims ++ l.map emuDims := by
  induction l generalizing placed with
  | nil => simp [optimizeGo]
  | cons b rest ih =>
    simp only [optimizeGo]
    rw [ih]
    simp [adjustAgainst_dims]

theorem insertEmu_perm (b : EmuBlock) (l : List EmuBlock) :
    List.Perm (insertEmu b l) (b :: l) := by
  induction l with
  | nil => exact List.Perm.refl _
  | cons c rest ih =>
    unfold insertEmu
    split
    · exact List.Perm.refl _
    · exact (List.Perm.cons c ih).trans (List.Perm.swap b c rest)

theorem sortEmuBlocks_perm (l : List EmuBlock) : List.Perm (sortEmuBlocks l) l := by
  suffices h : ∀ acc,
      List.Perm (l.foldl (fun acc b => insertEmu b acc) acc) (acc ++ l) by
    simpa [sortEmuBlocks] using h []
  induction l with
  | nil =>
    intro acc
    simp
  | cons b rest ih =>
    intro acc
    rw [List.foldl_cons]
    refine (ih (insertEmu b acc)).trans ?_
    refine (List.Perm.append_right rest (insertEmu_perm b acc)).trans ?_
    exact List.perm_middle.symm

/-- Claim C10: the EMU-space overlap pass keeps exactly the input blocks
up to repositioning — the output has the same length, and the multiset of
(width, height, text) triples is exactly the input's. -/
theorem c10_optimize_preserves_blocks (bs : List EmuBlock) :
    List.Perm ((optimize_text_layout bs).map emuDims) (bs.map emuDims) ∧
    (optimize_text_layout bs).length = bs.length := by
  unfold optimize_text_layout
  split
  · exact ⟨List.Perm.refl _, rfl⟩
  · have hdims : (optimizeGo (sortEmuBlocks bs) []).map emuDims =
        (sortEmuBlocks bs).map emuDims := by
      rw [optimizeGo_dims]
      simp
    have hperm : List.Perm ((optimizeGo (sortEmuBlocks bs) []).map emuDims)
        (bs.map emuDims) := by
      rw [hdims]
      exact (sortEmuBlocks_perm bs).map emuDims
    refine ⟨hperm, ?_⟩
    have hlen := hperm.length_eq
    simpa using hlen

end PdfPptx
